import Mathlib

/-!
Verification development for the mulberry phenology repository.

The repository has two algorithmic modules:

* `src/phen.py`: a photoperiod calculator (`calculate_photoperiod`), two
  thermal-unit functions (`chilling_unit`, `forcing_unit`) and a two-phase
  chilling/forcing state machine (`predict_budburst`) returning a budburst
  date or `None`.
* `src/frost_damage.py`: cumulative forcing (`compute_forcing`), a capped
  phenological stage (`compute_phenological_stage`), a sensitivity weight
  (`sensitivity_function`), per-hour frost damage (`hourly_frost_damage`)
  and the window integrator (`compute_cumulative_frost_damage`).

Embedding conventions:

* Timestamps are modelled as integers (an ordinal time line); daily and
  hourly records are `(time, temperature)` pairs in a list ordered as the
  corresponding pandas frame.
* Temperature arithmetic is over `ℚ`.  All arithmetic the Python code
  performs on these paths is rational (additions, subtractions,
  multiplications, divisions, comparisons), so on rational inputs the
  float computation and the `ℚ` computation agree exactly wherever no
  IEEE overflow/rounding is exercised; the statements below are about the
  exact-arithmetic semantics.
* `calculate_photoperiod` is transcendental (numpy trig), so it is
  modelled over `ℝ`.  Inside the state machine the photoperiod supplier
  appears as a function parameter `pp : ℤ → ℚ` standing for
  `fun d => calculate_photoperiod d latitude`; the state-machine theorems
  quantify over `pp`, hence cover every latitude.
* `df.sort_values('date')` is modelled by an insertion sort on the date
  component; `df.loc[a:b]` label slicing on a (sorted) datetime index is
  modelled as the inclusive range filter.
-/

namespace Mulberry

/-- `chilling_unit` from `src/phen.py`: 1 if `0 ≤ T ≤ 7`, else 0. -/
def chilling_unit (T : ℚ) : ℚ :=
  if 0 ≤ T ∧ T ≤ 7 then 1 else 0

/-- `forcing_unit` from `src/phen.py`: if `T > T_base` then
`(T - T_base) * (1 + alpha * (photoperiod - 12))`, else 0. -/
def forcing_unit (T photoperiod T_base alpha : ℚ) : ℚ :=
  if T > T_base then (T - T_base) * (1 + alpha * (photoperiod - 12)) else 0

/-- The `for idx, row in df.iterrows()` loop of `predict_budburst`
(`src/phen.py` lines 111-130), as a structural recursion over the sorted
record list.  State: running `chilling_sum`, `forcing_sum` and the
`chilling_phase` boolean; `none` models Python's `None` budburst date. -/
def predictLoop (pp : ℤ → ℚ) (chilling_threshold forcing_threshold T_base alpha : ℚ) :
    List (ℤ × ℚ) → ℚ → ℚ → Bool → Option ℤ
  | [], _, _, _ => none
  | (d, T) :: rest, chilling_sum, forcing_sum, chilling_phase =>
    if chilling_phase then
      let cs := chilling_sum + chilling_unit T
      if cs ≥ chilling_threshold then
        predictLoop pp chilling_threshold forcing_threshold T_base alpha rest cs 0 false
      else
        predictLoop pp chilling_threshold forcing_threshold T_base alpha rest cs forcing_sum true
    else
      let fs := forcing_sum + forcing_unit T (pp d) T_base alpha
      if fs ≥ forcing_threshold then some d
      else predictLoop pp chilling_threshold forcing_threshold T_base alpha rest chilling_sum fs false

/-- One insertion step of the date sort modelling `df.sort_values('date')`. -/
def insertByDate (r : ℤ × ℚ) : List (ℤ × ℚ) → List (ℤ × ℚ)
  | [] => [r]
  | s :: rest => if r.1 ≤ s.1 then r :: s :: rest else s :: insertByDate r rest

/-- Insertion sort by date, modelling `df.sort_values('date')` in
`predict_budburst` (the claims do not depend on how ties between equal
dates are ordered). -/
def sortByDate : List (ℤ × ℚ) → List (ℤ × ℚ)
  | [] => []
  | r :: rest => insertByDate r (sortByDate rest)

/-- `predict_budburst` from `src/phen.py`: sort by date, then run the
two-phase loop from `chilling_sum = 0`, `forcing_sum = 0`,
`chilling_phase = True`.  `pp` abstracts
`fun d => calculate_photoperiod d latitude`. -/
def predict_budburst (df : List (ℤ × ℚ)) (pp : ℤ → ℚ)
    (chilling_threshold forcing_threshold T_base alpha : ℚ) : Option ℤ :=
  predictLoop pp chilling_threshold forcing_threshold T_base alpha (sortByDate df) 0 0 true

/-- Phases of the dormancy/forcing state machine as the design document
names them (its §4.3); the terminal outcomes BUDBURST and EXHAUSTED are
the `some`/`none` results of the run. -/
inductive Phase
  | CHILLING
  | FORCING

/-- Specification-side machine, transcribed from the design document's
transition rule (§4.3): in CHILLING add `chilling_unit`, on reaching
`chilling_threshold` switch to FORCING with the forcing accumulator reset
to 0 and the transition day contributing no forcing; in FORCING add
`forcing_unit`, and the first record reaching `forcing_threshold` is the
budburst date, with no later record visited.  Exhaustion yields `none`. -/
def specRun (pp : ℤ → ℚ) (chilling_threshold forcing_threshold T_base alpha : ℚ) :
    List (ℤ × ℚ) → Phase → ℚ → ℚ → Option ℤ
  | [], _, _, _ => none
  | (_d, T) :: rest, Phase.CHILLING, cAcc, fAcc =>
    let cAcc2 := cAcc + chilling_unit T
    if cAcc2 ≥ chilling_threshold then
      specRun pp chilling_threshold forcing_threshold T_base alpha rest Phase.FORCING cAcc2 0
    else
      specRun pp chilling_threshold forcing_threshold T_base alpha rest Phase.CHILLING cAcc2 fAcc
  | (d, T) :: rest, Phase.FORCING, cAcc, fAcc =>
    let fAcc2 := fAcc + forcing_unit T (pp d) T_base alpha
    if fAcc2 ≥ forcing_threshold then some d
    else specRun pp chilling_threshold forcing_threshold T_base alpha rest Phase.FORCING cAcc fAcc2

/-- Running prefix sums with carried accumulator, modelling `cumsum`. -/
def cumsumFrom (acc : ℚ) : List ℚ → List ℚ
  | [] => []
  | x :: xs => (acc + x) :: cumsumFrom (acc + x) xs

/-- `Series.cumsum()` over a rational list. -/
def cumsum (xs : List ℚ) : List ℚ := cumsumFrom 0 xs

/-- `compute_forcing` from `src/frost_damage.py`:
`np.maximum(0, hourly_temps - T_base).cumsum()`. -/
def compute_forcing (hourly_temps : List ℚ) (T_base : ℚ) : List ℚ :=
  cumsum (hourly_temps.map fun T => max 0 (T - T_base))

/-- `compute_phenological_stage` from `src/frost_damage.py`:
`s = cum_forcing / F_mature` followed by the cap `s[s > 1] = 1`. -/
def compute_phenological_stage (cum_forcing : List ℚ) (F_mature : ℚ) : List ℚ :=
  cum_forcing.map fun c => if c / F_mature > 1 then 1 else c / F_mature

/-- `sensitivity_function` from `src/frost_damage.py`: `1 - s`. -/
def sensitivity_function (s : ℚ) : ℚ := 1 - s

/-- `hourly_frost_damage` from `src/frost_damage.py`:
`deficit = max(0, T_crit - T_hour); damage = sensitivity_function(s) * deficit`. -/
def hourly_frost_damage (T_hour s : ℚ) (T_crit : ℚ) : ℚ :=
  sensitivity_function s * max 0 (T_crit - T_hour)

/-- One row of the per-hour trace `df_period` returned by
`compute_cumulative_frost_damage` (its index plus the columns
`temperature`, `forcing`, `cum_forcing`, `s`, `hourly_damage`). -/
structure HourRow where
  time : ℤ
  temperature : ℚ
  forcing : ℚ
  cum_forcing : ℚ
  s : ℚ
  hourly_damage : ℚ

/-- Zip four columns into rows (the column-wise frame assembled by
`compute_cumulative_frost_damage` before the row-wise `apply`). -/
def zipWith4 (f : α → β → γ → δ → ε) : List α → List β → List γ → List δ → List ε
  | a :: as, b :: bs, c :: cs, d :: ds => f a b c d :: zipWith4 f as bs cs ds
  | _, _, _, _ => []

/-- `compute_cumulative_frost_damage` from `src/frost_damage.py`:
slice `df.loc[budburst_time:end_time]` (inclusive label slice on the
datetime index, modelled as the inclusive range filter), add the columns
`forcing = np.maximum(0, temperature - T_base)`, `cum_forcing`
(= `forcing.cumsum()`), `s` (= `compute_phenological_stage`), and
`hourly_damage` (row-wise `hourly_frost_damage`), and return
`(hourly_damage.sum(), df_period)`. -/
def compute_cumulative_frost_damage (df : List (ℤ × ℚ)) (budburst_time end_time : ℤ)
    (T_crit T_base F_mature : ℚ) : ℚ × List HourRow :=
  let df_period := df.filter fun r => decide (budburst_time ≤ r.1 ∧ r.1 ≤ end_time)
  let forcing := df_period.map fun r => max 0 (r.2 - T_base)
  let cum_forcing := cumsum forcing
  let s := compute_phenological_stage cum_forcing F_mature
  let rows := zipWith4
    (fun (r : ℤ × ℚ) (f c st : ℚ) =>
      ⟨r.1, r.2, f, c, st, hourly_frost_damage r.2 st T_crit⟩ : _ → _ → _ → _ → HourRow)
    df_period forcing cum_forcing s
  ((rows.map fun r => r.hourly_damage).sum, rows)

/-! ## Basic lemmas about prefix sums and the trace rows -/

theorem cumsumFrom_length (acc : ℚ) (xs : List ℚ) :
    (cumsumFrom acc xs).length = xs.length := by
  induction xs generalizing acc with
  | nil => rfl
  | cons x xs ih => simp [cumsumFrom, ih]

theorem cumsum_length (xs : List ℚ) : (cumsum xs).length = xs.length :=
  cumsumFrom_length 0 xs

/-- Entry `i` of the running prefix sums is the accumulator plus the sum of
the first `i + 1` inputs. -/
theorem cumsumFrom_get (acc : ℚ) (xs : List ℚ) (i : ℕ)
    (h : i < (cumsumFrom acc xs).length) :
    (cumsumFrom acc xs).get ⟨i, h⟩ = acc + (xs.take (i + 1)).sum := by
  induction xs generalizing acc i with
  | nil => simp [cumsumFrom] at h
  | cons x xs ih =>
    cases i with
    | zero => simp [cumsumFrom]
    | succ n =>
      have hn : n < (cumsumFrom (acc + x) xs).length := by
        simpa [cumsumFrom] using h
      have := ih (acc + x) n hn
      simp only [cumsumFrom, List.get_cons_succ, List.take_succ_cons, List.sum_cons]
      rw [this]
      ring

theorem cumsum_get (xs : List ℚ) (i : ℕ) (h : i < (cumsum xs).length) :
    (cumsum xs).get ⟨i, h⟩ = (xs.take (i + 1)).sum := by
  simpa using cumsumFrom_get 0 xs i h

theorem zipWith4_length (f : α → β → γ → δ → ε) :
    ∀ (as : List α) (bs : List β) (cs : List γ) (ds : List δ),
      bs.length = as.length → cs.length = as.length → ds.length = as.length →
      (zipWith4 f as bs cs ds).length = as.length := by
  intro as
  induction as with
  | nil =>
    intro bs cs ds hb hc hd
    cases bs <;> cases cs <;> cases ds <;> rfl
  | cons a as ih =>
    intro bs cs ds hb hc hd
    cases bs with
    | nil => simp at hb
    | cons b bs =>
      cases cs with
      | nil => simp at hc
      | cons c cs =>
        cases ds with
        | nil => simp at hd
        | cons d ds =>
          simp only [zipWith4, List.length_cons] at *
          rw [ih bs cs ds (by omega) (by omega) (by omega)]

theorem zipWith4_get (f : α → β → γ → δ → ε) :
    ∀ (as : List α) (bs : List β) (cs : List γ) (ds : List δ) (i : ℕ)
      (h : i < (zipWith4 f as bs cs ds).length) (ha : i < as.length)
      (hb : i < bs.length) (hc : i < cs.length) (hd : i < ds.length),
      (zipWith4 f as bs cs ds).get ⟨i, h⟩ =
        f (as.get ⟨i, ha⟩) (bs.get ⟨i, hb⟩) (cs.get ⟨i, hc⟩) (ds.get ⟨i, hd⟩) := by
  intro as
  induction as with
  | nil => intro bs cs ds i h ha hb hc hd; simp at ha
  | cons a as ih =>
    intro bs cs ds i h ha hb hc hd
    cases bs with
    | nil => simp at hb
    | cons b bs =>
      cases cs with
      | nil => simp at hc
      | cons c cs =>
        cases ds with
        | nil => simp at hd
        | cons d ds =>
          cases i with
          | zero => rfl
          | succ n =>
            simp only [zipWith4, List.get_cons_succ]
            exact ih bs cs ds n (by simpa [zipWith4] using h)
              (by simpa using ha) (by simpa using hb) (by simpa using hc) (by simpa using hd)

/-- The cap `s[s > 1] = 1` written with an if is the same as clamping by
`min 1`. -/
theorem stage_cap_eq_min (c F : ℚ) :
    (if c / F > 1 then 1 else c / F) = min 1 (c / F) := by
  split
  · exact (min_eq_left (le_of_lt (by assumption))).symm
  · exact (min_eq_right (not_lt.mp (by assumption))).symm

/-- Prefix sums of a list of non-negative rationals are non-negative. -/
theorem take_sum_nonneg (xs : List ℚ) (hxs : ∀ x ∈ xs, 0 ≤ x) (n : ℕ) :
    0 ≤ (xs.take n).sum :=
  List.sum_nonneg fun x hx => hxs x (List.take_subset n xs hx)

/-- Prefix sums of a list of non-negative rationals are monotone in the
prefix length. -/
theorem take_sum_mono (xs : List ℚ) (hxs : ∀ x ∈ xs, 0 ≤ x) {m n : ℕ}
    (hmn : m ≤ n) : (xs.take m).sum ≤ (xs.take n).sum := by
  have hsplit : xs.take n = xs.take m ++ (xs.drop m).take (n - m) := by
    rw [← List.take_add]
    congr 1
    omega
  rw [hsplit, List.sum_append]
  have : 0 ≤ ((xs.drop m).take (n - m)).sum :=
    List.sum_nonneg fun x hx =>
      hxs x (List.drop_subset m xs (List.take_subset _ _ hx))
  linarith

/-- Entry `i` of the running prefix sums, as an optional lookup: the
accumulator plus the sum of the first `i + 1` inputs. -/
theorem cumsumFrom_getElem (acc : ℚ) (xs : List ℚ) (i : ℕ) (h : i < xs.length) :
    (cumsumFrom acc xs)[i]? = some (acc + (xs.take (i + 1)).sum) := by
  induction xs generalizing acc i with
  | nil => simp at h
  | cons x xs ih =>
    cases i with
    | zero => simp [cumsumFrom]
    | succ n =>
      have hn : n < xs.length := by simpa using h
      simp only [cumsumFrom, List.getElem?_cons_succ, List.take_succ_cons, List.sum_cons]
      rw [ih (acc + x) n hn, add_assoc]

theorem cumsum_getElem (xs : List ℚ) (i : ℕ) (h : i < xs.length) :
    (cumsum xs)[i]? = some ((xs.take (i + 1)).sum) := by
  simp only [cumsum]
  rw [cumsumFrom_getElem 0 xs i h, zero_add]

/-- Optional lookup in `zipWith4` from optional lookups in the columns. -/
theorem zipWith4_getElem (f : α → β → γ → δ → ε) :
    ∀ (as : List α) (bs : List β) (cs : List γ) (ds : List δ) (i : ℕ)
      (a : α) (b : β) (c : γ) (d : δ),
      as[i]? = some a → bs[i]? = some b → cs[i]? = some c → ds[i]? = some d →
      (zipWith4 f as bs cs ds)[i]? = some (f a b c d) := by
  intro as
  induction as with
  | nil => intro bs cs ds i a b c d ha; simp at ha
  | cons x as ih =>
    intro bs cs ds i a b c d ha hb hc hd
    cases bs with
    | nil => simp at hb
    | cons y bs =>
      cases cs with
      | nil => simp at hc
      | cons z cs =>
        cases ds with
        | nil => simp at hd
        | cons u ds =>
          cases i with
          | zero =>
            simp only [List.getElem?_cons_zero, Option.some_inj] at ha hb hc hd
            subst ha; subst hb; subst hc; subst hd
            simp [zipWith4]
          | succ n =>
            simp only [List.getElem?_cons_succ] at ha hb hc hd
            simpa [zipWith4] using ih bs cs ds n a b c d ha hb hc hd

theorem compute_phenological_stage_getElem (C : List ℚ) (F : ℚ) (i : ℕ) (c : ℚ)
    (h : C[i]? = some c) :
    (compute_phenological_stage C F)[i]? =
      some (if c / F > 1 then 1 else c / F) := by
  simp only [compute_phenological_stage, List.getElem?_map, h, Option.map_some']

/-- Row `i` of the trace frame assembled by
`compute_cumulative_frost_damage` over a window `w`: time and temperature
of the `i`-th window record, the forcing unit `max 0 (T - T_base)`, the
prefix-sum cumulative forcing, the capped stage, and the hourly damage. -/
theorem frost_rows_getElem (w : List (ℤ × ℚ)) (Tc Tb F : ℚ) (i : ℕ) (h : i < w.length) :
    (zipWith4
        (fun (r : ℤ × ℚ) (f c st : ℚ) =>
          (⟨r.1, r.2, f, c, st, hourly_frost_damage r.2 st Tc⟩ : HourRow))
        w (w.map fun r => max 0 (r.2 - Tb))
        (cumsum (w.map fun r => max 0 (r.2 - Tb)))
        (compute_phenological_stage (cumsum (w.map fun r => max 0 (r.2 - Tb))) F))[i]? =
      some ⟨(w.get ⟨i, h⟩).1, (w.get ⟨i, h⟩).2,
        max 0 ((w.get ⟨i, h⟩).2 - Tb),
        ((w.take (i + 1)).map fun r => max 0 (r.2 - Tb)).sum,
        (if (((w.take (i + 1)).map fun r => max 0 (r.2 - Tb)).sum / F > 1) then 1
         else ((w.take (i + 1)).map fun r => max 0 (r.2 - Tb)).sum / F),
        hourly_frost_damage (w.get ⟨i, h⟩).2
          (if (((w.take (i + 1)).map fun r => max 0 (r.2 - Tb)).sum / F > 1) then 1
           else ((w.take (i + 1)).map fun r => max 0 (r.2 - Tb)).sum / F) Tc⟩ := by
  have hw : w[i]? = some (w.get ⟨i, h⟩) := by
    rw [List.get_eq_getElem]
    exact List.getElem?_eq_getElem h
  have hlenu : i < (w.map fun r => max 0 (r.2 - Tb)).length := by simpa using h
  have hu : (w.map fun r => max 0 (r.2 - Tb))[i]? =
      some (max 0 ((w.get ⟨i, h⟩).2 - Tb)) := by
    rw [List.getElem?_map, hw]
    rfl
  have hc : (cumsum (w.map fun r => max 0 (r.2 - Tb)))[i]? =
      some (((w.take (i + 1)).map fun r => max 0 (r.2 - Tb)).sum) := by
    rw [cumsum_getElem _ i hlenu, List.map_take]
  have hst : (compute_phenological_stage (cumsum (w.map fun r => max 0 (r.2 - Tb))) F)[i]? =
      some (if ((w.take (i + 1)).map fun r => max 0 (r.2 - Tb)).sum / F > 1 then 1
            else ((w.take (i + 1)).map fun r => max 0 (r.2 - Tb)).sum / F) := by
    simp only [compute_phenological_stage, List.getElem?_map, hc, Option.map_some']
  exact zipWith4_getElem _ _ _ _ _ i _ _ _ _ hw hu hc hst

/-- The trace has one row per record of the inclusive window. -/
theorem frost_trace_length (df : List (ℤ × ℚ)) (bb et : ℤ) (Tc Tb F : ℚ) :
    (compute_cumulative_frost_damage df bb et Tc Tb F).2.length
      = (df.filter fun r => decide (bb ≤ r.1 ∧ r.1 ≤ et)).length := by
  simp only [compute_cumulative_frost_damage]
  exact zipWith4_length _ _ _ _ _ (List.length_map _ _)
    (by simp [cumsum_length]) (by simp [compute_phenological_stage, cumsum_length])

/-! ## Claims about the frost-damage integrator -/

/-- Claim C2: on the inclusive window `[budburst_time, end_time]`,
`compute_cumulative_frost_damage` gives hour `i` the damage
`(1 - s) * max 0 (T_crit - T)` where `s` is the prefix sum of
`max 0 (T - T_base)` divided by `F_mature` and capped at 1 (`min 1`), and
returns `total_damage` equal to the sum of the per-hour damages, together
with the full per-hour trace (one row per window record). -/
theorem compute_cumulative_frost_damage_formula (df : List (ℤ × ℚ)) (bb et : ℤ)
    (Tc Tb F : ℚ) :
    (compute_cumulative_frost_damage df bb et Tc Tb F).2.length
      = (df.filter fun r => decide (bb ≤ r.1 ∧ r.1 ≤ et)).length
    ∧ (∀ (i : ℕ) (h : i < (df.filter fun r => decide (bb ≤ r.1 ∧ r.1 ≤ et)).length),
        ((compute_cumulative_frost_damage df bb et Tc Tb F).2.map
            fun r => r.hourly_damage)[i]?
          = some ((1 - min 1 (((((df.filter fun r => decide (bb ≤ r.1 ∧ r.1 ≤ et)).take
                  (i + 1)).map fun r => max 0 (r.2 - Tb)).sum) / F))
              * max 0 (Tc -
                  ((df.filter fun r => decide (bb ≤ r.1 ∧ r.1 ≤ et)).get ⟨i, h⟩).2)))
    ∧ (compute_cumulative_frost_damage df bb et Tc Tb F).1
        = ((compute_cumulative_frost_damage df bb et Tc Tb F).2.map
            fun r => r.hourly_damage).sum := by
  refine ⟨frost_trace_length df bb et Tc Tb F, ?_, rfl⟩
  intro i h
  simp only [compute_cumulative_frost_damage]
  rw [List.getElem?_map, frost_rows_getElem _ Tc Tb F i h]
  simp only [Option.map_some', hourly_frost_damage, sensitivity_function]
  rw [stage_cap_eq_min]

/-- Witness for C2 at a concrete input: the single in-window record
`(1, -2)` with `T_crit = 0`, `T_base = 5`, `F_mature = 1000` gets stage 0
and damage `(1 - 0) * max 0 (0 - (-2)) = 2`. -/
theorem compute_cumulative_frost_damage_formula_witness :
    ((compute_cumulative_frost_damage [((1 : ℤ), (-2 : ℚ))] 1 1 0 5 1000).2.map
        fun r => r.hourly_damage)[0]? = some 2 := by
  rw [(compute_cumulative_frost_damage_formula [((1 : ℤ), (-2 : ℚ))] 1 1 0 5 1000).2.1 0
    (by norm_num [List.filter])]
  norm_num [List.filter]

/-- Claim C3: for `F_mature > 0`, every entry of the stage series
`compute_phenological_stage (compute_forcing temps T_base) F_mature` lies
in `[0, 1]`, and the series is monotonically non-decreasing in the index. -/
theorem compute_phenological_stage_bounds_mono (temps : List ℚ) (Tb F : ℚ)
    (hF : 0 < F) :
    (∀ (i : ℕ) (v : ℚ),
        (compute_phenological_stage (compute_forcing temps Tb) F)[i]? = some v →
        0 ≤ v ∧ v ≤ 1)
    ∧ ∀ (i j : ℕ) (vi vj : ℚ), i ≤ j →
        (compute_phenological_stage (compute_forcing temps Tb) F)[i]? = some vi →
        (compute_phenological_stage (compute_forcing temps Tb) F)[j]? = some vj →
        vi ≤ vj := by
  have hunits : ∀ x ∈ temps.map fun T => max 0 (T - Tb), 0 ≤ x := by
    intro x hx
    obtain ⟨T, _, rfl⟩ := List.mem_map.mp hx
    exact le_max_left 0 (T - Tb)
  have hchar : ∀ (i : ℕ) (v : ℚ),
      (compute_phenological_stage (compute_forcing temps Tb) F)[i]? = some v →
      v = min 1 (((temps.map fun T => max 0 (T - Tb)).take (i + 1)).sum / F) := by
    intro i v hv
    have hi : i < (temps.map fun T => max 0 (T - Tb)).length := by
      have hlt := (List.getElem?_eq_some.mp hv).1
      simpa [compute_phenological_stage, compute_forcing, cumsum_length] using hlt
    have hc : (cumsum (temps.map fun T => max 0 (T - Tb)))[i]? =
        some (((temps.map fun T => max 0 (T - Tb)).take (i + 1)).sum) :=
      cumsum_getElem _ i hi
    have hst : (compute_phenological_stage
          (cumsum (temps.map fun T => max 0 (T - Tb))) F)[i]? =
        some (if ((temps.map fun T => max 0 (T - Tb)).take (i + 1)).sum / F > 1 then 1
              else ((temps.map fun T => max 0 (T - Tb)).take (i + 1)).sum / F) := by
      simp only [compute_phenological_stage, List.getElem?_map, hc, Option.map_some']
    simp only [compute_forcing] at hv
    rw [hst] at hv
    rw [← Option.some_inj.mp hv, stage_cap_eq_min]
  constructor
  · intro i v hv
    rw [hchar i v hv]
    exact ⟨le_min (by norm_num) (div_nonneg (take_sum_nonneg _ hunits _) hF.le),
      min_le_left _ _⟩
  · intro i j vi vj hij hvi hvj
    rw [hchar i vi hvi, hchar j vj hvj]
    refine min_le_min le_rfl ?_
    exact (div_le_div_iff_of_pos_right hF).mpr
      (take_sum_mono _ hunits (Nat.add_le_add_right hij 1))

/-- Witness for C3 at a concrete input: `temps = [10, 2, 8]`,
`T_base = 5`, `F_mature = 1000 > 0`; the stage entries are
`[1/200, 1/200, 1/125]`, each in `[0, 1]`, and entry 0 ≤ entry 2. -/
theorem compute_phenological_stage_bounds_mono_witness :
    (0 : ℚ) < 1000
    ∧ (0 ≤ (1/200 : ℚ) ∧ (1/200 : ℚ) ≤ 1)
    ∧ (1/200 : ℚ) ≤ 1/125 := by
  refine ⟨by norm_num, ?_, ?_⟩
  · exact (compute_phenological_stage_bounds_mono [10, 2, 8] 5 1000 (by norm_num)).1 0
      (1/200)
      (by norm_num [compute_forcing, cumsum, cumsumFrom, compute_phenological_stage])
  · exact (compute_phenological_stage_bounds_mono [10, 2, 8] 5 1000 (by norm_num)).2 0 2
      (1/200) (1/125) (by norm_num)
      (by norm_num [compute_forcing, cumsum, cumsumFrom, compute_phenological_stage])
      (by norm_num [compute_forcing, cumsum, cumsumFrom, compute_phenological_stage])

/-- Claim C6: a window with `budburst_time > end_time`, or more generally
with no record in the inclusive range, yields `total_damage = 0` and an
empty per-hour trace (an ordinary return value, not an error). -/
theorem compute_cumulative_frost_damage_empty_window (df : List (ℤ × ℚ)) (bb et : ℤ)
    (Tc Tb F : ℚ)
    (h : et < bb ∨ ∀ r ∈ df, ¬(bb ≤ r.1 ∧ r.1 ≤ et)) :
    compute_cumulative_frost_damage df bb et Tc Tb F = (0, []) := by
  have hfil : df.filter (fun r => decide (bb ≤ r.1 ∧ r.1 ≤ et)) = [] := by
    rw [List.filter_eq_nil_iff]
    intro a ha
    simp only [decide_eq_true_eq]
    rcases h with h | h
    · rintro ⟨ha1, ha2⟩; omega
    · exact h a ha
  simp only [compute_cumulative_frost_damage]
  rw [hfil]
  simp [cumsum, cumsumFrom, compute_phenological_stage, zipWith4]

/-- Witness for C6 at a concrete input: `budburst_time = 3 > 2 = end_time`
over the series `[(5, 1)]`. -/
theorem compute_cumulative_frost_damage_empty_window_witness :
    compute_cumulative_frost_damage [((5 : ℤ), (1 : ℚ))] 3 2 0 5 1000 = (0, []) :=
  compute_cumulative_frost_damage_empty_window [((5 : ℤ), (1 : ℚ))] 3 2 0 5 1000
    (Or.inl (by norm_num))

/-- Counterexample to claim C8 as stated: called with `F_mature = -1 ≤ 0`,
`compute_phenological_stage` raises no error — it returns the numeric
stage list `[-3]` for cumulative forcing `[3]` (the float computation
`3 / (-1) = -3`, with `-3 > 1` false, is exact, so the rational model
matches the float run bit for bit). -/
theorem compute_phenological_stage_neg_F_counterexample :
    compute_phenological_stage [3] (-1) = [-3] := by
  norm_num [compute_phenological_stage]

/-- Claim C8, amended: the code does not validate `F_mature` and raises no
error for `F_mature ≤ 0`.  For `F_mature < 0` it returns a numeric result:
on any non-negative cumulative-forcing list the cap is inert and the
stages are exactly `cum_forcing / F_mature`, and every stage column of a
`compute_cumulative_frost_damage` trace is `≤ 0`.  (For `F_mature = 0` the
float code yields IEEE infinities, outside this exact-arithmetic model.) -/
theorem compute_phenological_stage_no_validation (F : ℚ) (hF : F < 0) :
    (∀ cf : List ℚ, (∀ c ∈ cf, 0 ≤ c) →
        compute_phenological_stage cf F = cf.map fun c => c / F)
    ∧ ∀ (df : List (ℤ × ℚ)) (bb et : ℤ) (Tc Tb : ℚ),
        ∀ row ∈ (compute_cumulative_frost_damage df bb et Tc Tb F).2, row.s ≤ 0 := by
  constructor
  · intro cf hcf
    simp only [compute_phenological_stage]
    refine List.map_congr_left fun c hc => ?_
    have hle : c / F ≤ 0 := div_nonpos_iff.mpr (Or.inl ⟨hcf c hc, hF.le⟩)
    rw [if_neg (by linarith)]
  · intro df bb et Tc Tb row hrow
    rw [List.mem_iff_getElem?] at hrow
    obtain ⟨i, hi⟩ := hrow
    simp only [compute_cumulative_frost_damage] at hi
    have hlen : i < (df.filter fun r => decide (bb ≤ r.1 ∧ r.1 ≤ et)).length := by
      have h1 := (List.getElem?_eq_some.mp hi).1
      have h2 : (zipWith4
          (fun (r : ℤ × ℚ) (f c st : ℚ) =>
            (⟨r.1, r.2, f, c, st, hourly_frost_damage r.2 st Tc⟩ : HourRow))
          (df.filter fun r => decide (bb ≤ r.1 ∧ r.1 ≤ et))
          ((df.filter fun r => decide (bb ≤ r.1 ∧ r.1 ≤ et)).map fun r => max 0 (r.2 - Tb))
          (cumsum ((df.filter fun r => decide (bb ≤ r.1 ∧ r.1 ≤ et)).map
            fun r => max 0 (r.2 - Tb)))
          (compute_phenological_stage
            (cumsum ((df.filter fun r => decide (bb ≤ r.1 ∧ r.1 ≤ et)).map
              fun r => max 0 (r.2 - Tb))) F)).length
          = (df.filter fun r => decide (bb ≤ r.1 ∧ r.1 ≤ et)).length :=
        zipWith4_length _ _ _ _ _ (List.length_map _ _) (by simp [cumsum_length])
          (by simp [compute_phenological_stage, cumsum_length])
      omega
    rw [frost_rows_getElem _ Tc Tb F i hlen] at hi
    obtain rfl := Option.some_inj.mp hi
    have hsum : 0 ≤ ((((df.filter fun r => decide (bb ≤ r.1 ∧ r.1 ≤ et)).take (i + 1)).map
        fun r => max 0 (r.2 - Tb)).sum) := by
      apply List.sum_nonneg
      intro x hx
      obtain ⟨r, _, rfl⟩ := List.mem_map.mp hx
      exact le_max_left 0 (r.2 - Tb)
    have hdiv : ((((df.filter fun r => decide (bb ≤ r.1 ∧ r.1 ≤ et)).take (i + 1)).map
        fun r => max 0 (r.2 - Tb)).sum) / F ≤ 0 :=
      div_nonpos_iff.mpr (Or.inl ⟨hsum, hF.le⟩)
    dsimp only
    rw [if_neg (by linarith)]
    exact hdiv

/-- Witness for the amended C8 at concrete inputs: `F_mature = -1 < 0`,
stages `[3].map (fun c => c / -1)` on `cf = [3]`, and every row of the
one-row trace of `[(1, -2)]` has non-positive stage. -/
theorem compute_phenological_stage_no_validation_witness :
    compute_phenological_stage [3] (-1) = [3].map (fun c => c / (-1 : ℚ))
    ∧ ∀ row ∈ (compute_cumulative_frost_damage [((1 : ℤ), (-2 : ℚ))] 1 1 0 5 (-1)).2,
        row.s ≤ 0 :=
  ⟨(compute_phenological_stage_no_validation (-1) (by norm_num)).1 [3] (by norm_num),
   (compute_phenological_stage_no_validation (-1) (by norm_num)).2
      [((1 : ℤ), (-2 : ℚ))] 1 1 0 5⟩

/-! ## Basic lemmas about the state machine -/

/-- The code loop and the specification machine agree from any state, the
boolean `chilling_phase` corresponding to the CHILLING phase tag. -/
theorem predictLoop_eq_specRun (pp : ℤ → ℚ) (cTh fTh Tb al : ℚ) :
    ∀ (l : List (ℤ × ℚ)) (cs fs : ℚ) (b : Bool),
      predictLoop pp cTh fTh Tb al l cs fs b =
        specRun pp cTh fTh Tb al l (if b then Phase.CHILLING else Phase.FORCING) cs fs := by
  intro l
  induction l with
  | nil => intro cs fs b; cases b <;> simp [predictLoop, specRun]
  | cons r rest ih =>
    intro cs fs b
    obtain ⟨d, T⟩ := r
    cases b
    · simp only [predictLoop, specRun, Bool.false_eq_true, if_false]
      split
      · rfl
      · simpa using ih cs (fs + forcing_unit T (pp d) Tb al) false
    · simp only [predictLoop, specRun, if_true]
      split
      · simpa using ih (cs + chilling_unit T) 0 false
      · simpa using ih (cs + chilling_unit T) fs true

/-- The chilling unit is 0 or 1, hence non-negative. -/
theorem chilling_unit_nonneg (T : ℚ) : 0 ≤ chilling_unit T := by
  unfold chilling_unit; split <;> norm_num

/-- Membership is preserved by one insertion step of the date sort. -/
theorem mem_insertByDate (a r : ℤ × ℚ) (l : List (ℤ × ℚ)) :
    a ∈ insertByDate r l ↔ a = r ∨ a ∈ l := by
  induction l with
  | nil => simp [insertByDate]
  | cons s rest ih =>
    simp only [insertByDate]
    split
    · simp [or_comm, or_assoc, or_left_comm]
    · simp [ih, or_comm, or_assoc, or_left_comm]

/-- The date sort permutes the records: membership is unchanged. -/
theorem mem_sortByDate (a : ℤ × ℚ) (l : List (ℤ × ℚ)) :
    a ∈ sortByDate l ↔ a ∈ l := by
  induction l with
  | nil => simp [sortByDate]
  | cons r rest ih => simp [sortByDate, mem_insertByDate, ih]

/-- A date returned by the loop is the date of one of the records it was
given. -/
theorem predictLoop_some_mem (pp : ℤ → ℚ) (cTh fTh Tb al : ℚ) :
    ∀ (l : List (ℤ × ℚ)) (cs fs : ℚ) (b : Bool) (d : ℤ),
      predictLoop pp cTh fTh Tb al l cs fs b = some d → ∃ T, (d, T) ∈ l := by
  intro l
  induction l with
  | nil => intro cs fs b d h; simp [predictLoop] at h
  | cons r rest ih =>
    intro cs fs b d h
    obtain ⟨d0, T0⟩ := r
    cases b <;> simp only [predictLoop, Bool.false_eq_true, if_false, if_true] at h
    · by_cases hc : fs + forcing_unit T0 (pp d0) Tb al ≥ fTh
      · rw [if_pos hc] at h
        exact ⟨T0, by simp [Option.some_inj.mp h]⟩
      · rw [if_neg hc] at h
        obtain ⟨T, hT⟩ := ih cs (fs + forcing_unit T0 (pp d0) Tb al) false d h
        exact ⟨T, List.mem_cons_of_mem _ hT⟩
    · by_cases hc : cs + chilling_unit T0 ≥ cTh
      · rw [if_pos hc] at h
        obtain ⟨T, hT⟩ := ih (cs + chilling_unit T0) 0 false d h
        exact ⟨T, List.mem_cons_of_mem _ hT⟩
      · rw [if_neg hc] at h
        obtain ⟨T, hT⟩ := ih (cs + chilling_unit T0) fs true d h
        exact ⟨T, List.mem_cons_of_mem _ hT⟩

/-! ## Claims about the state machine -/

/-- Claim C1: `predict_budburst` implements the two-phase transition rule:
processing the records oldest-first, while CHILLING each record adds
`chilling_unit T` and, on the chilling sum reaching `chilling_threshold`,
the machine switches to FORCING with the forcing sum reset to 0 (the
transition day contributing no forcing); while FORCING each record adds
`forcing_unit T photoperiod T_base alpha`, and the first record on which
the forcing sum reaches `forcing_threshold` is returned as the budburst
date with no later record visited.  Formally: the code refines the
specification machine `specRun` started in CHILLING with both sums 0 on
the date-sorted series. -/
theorem predict_budburst_refines_specRun (df : List (ℤ × ℚ)) (pp : ℤ → ℚ)
    (cTh fTh Tb al : ℚ) :
    predict_budburst df pp cTh fTh Tb al =
      specRun pp cTh fTh Tb al (sortByDate df) Phase.CHILLING 0 0 := by
  simpa using predictLoop_eq_specRun pp cTh fTh Tb al (sortByDate df) 0 0 true

/-- Claim C4: on the empty series `predict_budburst` returns the `none`
sentinel; whenever the loop exhausts its records in either phase it
returns `none`; and a `some` result is always the date of a record of the
input series, never a default or fallback date.  (The undetermined outcome
is an ordinary return value of the total function, not an error.) -/
theorem predict_budburst_undetermined (pp : ℤ → ℚ) (cTh fTh Tb al : ℚ) :
    predict_budburst [] pp cTh fTh Tb al = none
    ∧ (∀ (cs fs : ℚ) (b : Bool), predictLoop pp cTh fTh Tb al [] cs fs b = none)
    ∧ ∀ (df : List (ℤ × ℚ)) (d : ℤ),
        predict_budburst df pp cTh fTh Tb al = some d → ∃ T, (d, T) ∈ df := by
  refine ⟨rfl, fun cs fs b => rfl, fun df d h => ?_⟩
  obtain ⟨T, hT⟩ := predictLoop_some_mem pp cTh fTh Tb al (sortByDate df) 0 0 true d h
  exact ⟨T, (mem_sortByDate (d, T) df).mp hT⟩

/-- Witness for C4 at concrete inputs: the empty series yields `none`, and
on the series `[(354, 3), (355, 10)]` with photoperiod 12, thresholds 1
and 1, the returned date 355 is a date of the input. -/
theorem predict_budburst_undetermined_witness :
    predict_budburst [] (fun _ => (12 : ℚ)) 1 1 5 0 = none
    ∧ ∃ T, ((355 : ℤ), T) ∈ [((354 : ℤ), (3 : ℚ)), (355, 10)] := by
  refine ⟨(predict_budburst_undetermined (fun _ => (12 : ℚ)) 1 1 5 0).1, ?_⟩
  exact (predict_budburst_undetermined (fun _ => (12 : ℚ)) 1 1 5 0).2.2
    [((354 : ℤ), (3 : ℚ)), (355, 10)] 355
    (by norm_num [predict_budburst, sortByDate, insertByDate, predictLoop,
      chilling_unit, forcing_unit])

/-- Counterexample to claim C5 as stated: with both thresholds 0 the
machine enters FORCING on the first record, so the first record evaluated
in FORCING is `(355, 10)`; the claim asserts budburst then fires there
(result `some 355`), but the forcing unit of that record is
`(10 - 5) * (1 + (1/10) * (0 - 12)) = -1 < 0 = forcing_threshold`, so the
code returns `none`.  (Photoperiod 0 is attainable: `calculate_photoperiod`
at day-of-year 355 and latitude 89 is exactly 0, see
`calculate_photoperiod_day355_lat89`.) -/
theorem predict_budburst_zero_threshold_counterexample :
    predict_budburst [((354 : ℤ), (3 : ℚ)), (355, 10)] (fun _ => 0) 0 0 5 (1/10) = none := by
  norm_num [predict_budburst, sortByDate, insertByDate, predictLoop,
    chilling_unit, forcing_unit]

/-- Claim C5, amended: for every non-empty daily series,
`chilling_threshold ≤ 0` makes the machine enter FORCING on the very first
record (the rest of the run is the forcing loop started with forcing sum
0); and a record evaluated first in the FORCING phase fires budburst
whenever `forcing_threshold ≤ 0` and its forcing unit is non-negative —
the amendment being that a negative photoperiod-modulated forcing unit
lying below the threshold does not fire (see the counterexample). -/
theorem predict_budburst_zero_threshold (df : List (ℤ × ℚ)) (pp : ℤ → ℚ)
    (cTh fTh Tb al : ℚ) (r : ℤ × ℚ) (rest : List (ℤ × ℚ))
    (hc : cTh ≤ 0) (hsort : sortByDate df = r :: rest) :
    predict_budburst df pp cTh fTh Tb al =
      predictLoop pp cTh fTh Tb al rest (chilling_unit r.2) 0 false
    ∧ ∀ (d : ℤ) (T : ℚ) (tail : List (ℤ × ℚ)) (cs : ℚ),
        fTh ≤ 0 → 0 ≤ forcing_unit T (pp d) Tb al →
        predictLoop pp cTh fTh Tb al ((d, T) :: tail) cs 0 false = some d := by
  constructor
  · obtain ⟨d0, T0⟩ := r
    have hge : chilling_unit T0 ≥ cTh := le_trans hc (chilling_unit_nonneg T0)
    rw [predict_budburst, hsort]
    simp only [predictLoop, if_true, zero_add]
    rw [if_pos hge]
  · intro d T tail cs hf hunit
    simp only [predictLoop, Bool.false_eq_true, if_false]
    rw [if_pos (show 0 + forcing_unit T (pp d) Tb al ≥ fTh by linarith)]

/-- Witness for the amended C5 at concrete inputs: series
`[(354, 3), (355, 10)]`, photoperiod 12, both thresholds 0: the run equals
the forcing loop on the tail, and the first FORCING record fires (its
forcing unit `5 ≥ 0`). -/
theorem predict_budburst_zero_threshold_witness :
    (predict_budburst [((354 : ℤ), (3 : ℚ)), (355, 10)] (fun _ => 12) 0 0 5 0 =
      predictLoop (fun _ => 12) 0 0 5 0 [((355 : ℤ), (10 : ℚ))] (chilling_unit 3) 0 false)
    ∧ predictLoop (fun _ => (12 : ℚ)) 0 0 5 0 [((355 : ℤ), (10 : ℚ))] 0 0 false = some 355 := by
  have h := predict_budburst_zero_threshold [((354 : ℤ), (3 : ℚ)), (355, 10)] (fun _ => 12)
    0 0 5 0 ((354 : ℤ), (3 : ℚ)) [((355 : ℤ), (10 : ℚ))] (by norm_num)
    (by norm_num [sortByDate, insertByDate])
  exact ⟨h.1, h.2 355 10 [] 0 (by norm_num) (by norm_num [forcing_unit])⟩

/-- Claim C7: `forcing_unit` returns 0 when `T ≤ T_base` and otherwise
exactly `(T - T_base) * (1 + alpha * (photoperiod - 12))`; in particular
(third conjunct, at `T = 6`, `photoperiod = 0`, `T_base = 5`, `alpha = 1`,
so `alpha > 0` and `photoperiod < 12`) the result can be negative and is
not clamped to zero. -/
theorem forcing_unit_formula (T p Tb al : ℚ) :
    (T ≤ Tb → forcing_unit T p Tb al = 0)
    ∧ (Tb < T → forcing_unit T p Tb al = (T - Tb) * (1 + al * (p - 12)))
    ∧ forcing_unit 6 0 5 1 = -11 := by
  refine ⟨fun h => ?_, fun h => ?_, by norm_num [forcing_unit]⟩
  · rw [forcing_unit, if_neg (not_lt.mpr h)]
  · rw [forcing_unit, if_pos h]

/-- Witness for C7 at concrete inputs: `T = 3 ≤ 5` gives 0, and `T = 6 > 5`
gives the unclamped product. -/
theorem forcing_unit_formula_witness :
    forcing_unit 3 0 5 1 = 0 ∧ forcing_unit 6 0 5 1 = (6 - 5) * (1 + 1 * (0 - 12)) := by
  exact ⟨(forcing_unit_formula 3 0 5 1).1 (by norm_num),
    (forcing_unit_formula 6 0 5 1).2.1 (by norm_num)⟩

/-! ## The photoperiod calculator over the reals -/

open Real

/-- `calculate_photoperiod` from `src/phen.py`: latitude to radians
(`np.radians`), solar declination
`np.radians(23.44) * sin(2 pi (day_of_year - 81) / 365)`, sunset hour
angle `arccos(np.clip(-tan(lat_rad) * tan(decl), -1, 1))`, day length
`(24 / pi) * omega`.  The trigonometry is transcendental, hence this one
definition lives over `ℝ`; `np.clip(v, -1, 1)` is `min 1 (max (-1) v)`. -/
noncomputable def calculate_photoperiod (day_of_year : ℕ) (latitude : ℝ) : ℝ :=
  let lat_rad := latitude * (π / 180)
  let decl := (23.44 * (π / 180)) * Real.sin (2 * π * ((day_of_year : ℝ) - 81) / 365)
  let cos_omega := -Real.tan lat_rad * Real.tan decl
  let cos_omega_clipped := min 1 (max (-1) cos_omega)
  (24 / π) * Real.arccos cos_omega_clipped

/-- At latitude 89 and the day-172 declination, the raw cosine argument
overshoots: `tan(89°) * tan(decl) ≥ 1`, so the clip saturates. -/
theorem tan_prod_ge_one :
    1 ≤ Real.tan (89 * (π / 180)) *
      Real.tan ((23.44 * (π / 180)) * Real.sin (2 * π * (91 : ℝ) / 365)) := by
  have hπ : (0 : ℝ) < π := pi_pos
  have hπlt : π < 3.15 := pi_lt_d2
  have hπgt : (3.14 : ℝ) < π := pi_gt_d2
  have ht_pos : 0 < Real.tan (π / 180) :=
    tan_pos_of_pos_of_lt_pi_div_two (by positivity) (by linarith)
  have hsin_le : Real.sin (π / 180) ≤ π / 180 := (sin_lt (by positivity)).le
  have hcos_ge : (1 : ℝ) / 2 ≤ Real.cos (π / 180) := by
    rw [← cos_pi_div_three]
    exact cos_le_cos_of_nonneg_of_le_pi (by positivity) (by linarith) (by linarith)
  have hcos_pos : (0 : ℝ) < Real.cos (π / 180) := by linarith
  have ht_le : Real.tan (π / 180) ≤ π / 90 := by
    rw [tan_eq_sin_div_cos, div_le_iff₀ hcos_pos]
    nlinarith
  have hlat_eq : (89 : ℝ) * (π / 180) = π / 2 - π / 180 := by ring
  have htan_lat : Real.tan (89 * (π / 180)) = (Real.tan (π / 180))⁻¹ := by
    rw [hlat_eq, tan_pi_div_two_sub]
  have htan_lat_ge : (28 : ℝ) ≤ Real.tan (89 * (π / 180)) := by
    rw [htan_lat]
    have h1 : (π / 90)⁻¹ ≤ (Real.tan (π / 180))⁻¹ := inv_anti₀ ht_pos ht_le
    have h2 : (π / 90)⁻¹ = 90 / π := by rw [inv_div]
    have h3 : (28 : ℝ) ≤ 90 / π := by
      rw [le_div_iff₀ hπ]
      nlinarith
    linarith [h2 ▸ h1]
  have hθ6 : π / 6 < 2 * π * (91 : ℝ) / 365 := by nlinarith
  have hθ2 : 2 * π * (91 : ℝ) / 365 ≤ π / 2 := by nlinarith
  have hsinθ : (1 : ℝ) / 2 < Real.sin (2 * π * (91 : ℝ) / 365) := by
    have hmono := strictMonoOn_sin (a := π / 6) (b := 2 * π * (91 : ℝ) / 365)
      ⟨by linarith, by linarith⟩ ⟨by linarith, hθ2⟩ hθ6
    rwa [sin_pi_div_six] at hmono
  have hsinθ1 : Real.sin (2 * π * (91 : ℝ) / 365) ≤ 1 := sin_le_one _
  have hk_pos : (0 : ℝ) < 23.44 * (π / 180) := by positivity
  have hk_lt : 23.44 * (π / 180) < 0.42 := by nlinarith
  have hk_gt : (0.4 : ℝ) < 23.44 * (π / 180) := by nlinarith
  have hdecl_gt : (0.2 : ℝ) < (23.44 * (π / 180)) * Real.sin (2 * π * (91 : ℝ) / 365) := by
    nlinarith
  have hdecl_lt : (23.44 * (π / 180)) * Real.sin (2 * π * (91 : ℝ) / 365) < π / 2 := by
    nlinarith
  have htan_decl : (23.44 * (π / 180)) * Real.sin (2 * π * (91 : ℝ) / 365) <
      Real.tan ((23.44 * (π / 180)) * Real.sin (2 * π * (91 : ℝ) / 365)) :=
    lt_tan (by linarith) hdecl_lt
  nlinarith

/-- Polar-day saturation: at day-of-year 172 (near the June solstice) and
latitude 89, the clipped cosine is exactly -1 and `calculate_photoperiod`
returns exactly 24 hours. -/
theorem calculate_photoperiod_day172_lat89 : calculate_photoperiod 172 89 = 24 := by
  have hcast : ((172 : ℕ) : ℝ) - 81 = 91 := by norm_num
  simp only [calculate_photoperiod, hcast]
  have hprod := tan_prod_ge_one
  have hco : -Real.tan (89 * (π / 180)) *
      Real.tan ((23.44 * (π / 180)) * Real.sin (2 * π * (91 : ℝ) / 365)) ≤ -1 := by
    linarith
  rw [max_eq_left hco, min_eq_right (by norm_num : (-1 : ℝ) ≤ 1), arccos_neg_one,
    div_mul_cancel₀ 24 pi_ne_zero]

/-- Polar-night saturation: at day-of-year 355 (near the December
solstice) and latitude 89, the declination is the negative of the day-172
one, the clipped cosine is exactly 1, and `calculate_photoperiod` returns
exactly 0 hours.  (This also exhibits an attained photoperiod of 0, the
value used by the claim C5 counterexample.) -/
theorem calculate_photoperiod_day355_lat89 : calculate_photoperiod 355 89 = 0 := by
  have hcast : ((355 : ℕ) : ℝ) - 81 = 274 := by norm_num
  simp only [calculate_photoperiod, hcast]
  have hsin : Real.sin (2 * π * (274 : ℝ) / 365) =
      -Real.sin (2 * π * (91 : ℝ) / 365) := by
    rw [show 2 * π * (274 : ℝ) / 365 = π * (183 / 365) + π by ring, sin_add_pi,
      show π * ((183 : ℝ) / 365) = π - 2 * π * (91 : ℝ) / 365 by ring, sin_pi_sub]
  rw [hsin, mul_neg, tan_neg, mul_neg, neg_mul, neg_neg]
  have hprod := tan_prod_ge_one
  rw [max_eq_right (by linarith : (-1 : ℝ) ≤ Real.tan (89 * (π / 180)) *
      Real.tan ((23.44 * (π / 180)) * Real.sin (2 * π * (91 : ℝ) / 365))),
    min_eq_left hprod, arccos_one, mul_zero]

/-- Counterexample to claim C9 as stated: the returned day length is not
always strictly inside `(0, 24)` — at day-of-year 172 and latitude 89
(within `[-90, 90]`) the clip saturates and the result is exactly 24. -/
theorem calculate_photoperiod_open_range_counterexample :
    ¬ (0 < calculate_photoperiod 172 89 ∧ calculate_photoperiod 172 89 < 24) := by
  rw [calculate_photoperiod_day172_lat89]
  rintro ⟨-, h⟩
  exact absurd h (by norm_num)

/-- Claim C9, amended: for every date and every latitude in `[-90, 90]`,
`calculate_photoperiod` returns a (finite) day length in the closed
interval `[0, 24]`; the endpoints are attained when the clip saturates at
extreme latitude/declination combinations (polar day/night), so the open
interval of the original claim is the only part that fails. -/
theorem calculate_photoperiod_range (day_of_year : ℕ) (latitude : ℝ)
    (_h1 : -90 ≤ latitude) (_h2 : latitude ≤ 90) :
    0 ≤ calculate_photoperiod day_of_year latitude
    ∧ calculate_photoperiod day_of_year latitude ≤ 24 := by
  simp only [calculate_photoperiod]
  constructor
  · exact mul_nonneg (by positivity) (arccos_nonneg _)
  · calc (24 / π) * Real.arccos _ ≤ (24 / π) * π :=
          mul_le_mul_of_nonneg_left (arccos_le_pi _) (by positivity)
    _ = 24 := div_mul_cancel₀ 24 pi_ne_zero

/-- Witness for the amended C9 at a concrete input: latitude 0 is in
`[-90, 90]` and the day length of day 1 lies in `[0, 24]`. -/
theorem calculate_photoperiod_range_witness :
    ((-90 : ℝ) ≤ 0 ∧ (0 : ℝ) ≤ 90)
    ∧ (0 ≤ calculate_photoperiod 1 0 ∧ calculate_photoperiod 1 0 ≤ 24) :=
  ⟨⟨by norm_num, by norm_num⟩, calculate_photoperiod_range 1 0 (by norm_num) (by norm_num)⟩

end Mulberry
